import Mathlib

/-!
Verification of the wosim storage engine and server against its
natural-language specification.  Each section shallowly embeds one part of
the Rust source (src/crates/...) as executable Lean definitions and proves
or refutes the corresponding claims.  Machine integers (u16/u32/u64/usize)
are modelled as `Nat`; wrapping arithmetic is written with an explicit
`% U32` where an overflow is reachable; fallible paths (Rust panics) are
modelled with `Except`.
-/

set_option autoImplicit false

namespace Wosim

/-! ## Pages and free lists (database/src/page.rs, free_list.rs)

A `Pager` is the process-wide page space: `pages nr i` is the `i`-th
little-endian `u32` word of page `nr` (the `FreeListPage` view used by the
free list), and `writable` is the per-page writable bitset.  Page contents
are total functions because the free-list code only ever reads words it has
previously written; the source's `assert_ne!(page_nr, NULL_PAGE_NR)` debug
assertion is not modelled (a failed assert panics in the source, and every
run that returns satisfies it). -/

def PAGE_SIZE : ℕ := 8192

/-- u32 page number; `0` is the reserved null / header page. -/
abbrev PageNr := ℕ

def NULL_PAGE_NR : PageNr := 0

/-- 2^32, the modulus of `u32` arithmetic. -/
def U32 : ℕ := 4294967296

/-- `FAN_OUT = PAGE_SIZE / size_of::<PageNr>() = 2048` (free_list.rs). -/
def FAN_OUT : ℕ := PAGE_SIZE / 4

def MAX_DEPTH : ℕ := 2

/-- `ENTRIES_PER_DEPTH = [FAN_OUT^2, FAN_OUT, 1]` (free_list.rs). -/
def entriesPerDepth : ℕ → ℕ
  | 0 => FAN_OUT ^ 2
  | 1 => FAN_OUT
  | _ => 1

structure Pager where
  pages : PageNr → ℕ → ℕ
  writable : PageNr → Bool

/-- `Pager::enable_write` (page.rs): sets the page's bit in the writable
bitset. -/
def Pager.enable_write (p : Pager) (nr : PageNr) : Pager :=
  { p with writable := fun k => if k = nr then true else p.writable k }

/-- `Pager::can_write` (page.rs). -/
def Pager.can_write (p : Pager) (nr : PageNr) : Bool :=
  p.writable nr

/-- The persistent free-list header (free_list.rs `FreeList`): root page of
the three-level entry array and the `[front, back)` window.  All three
fields are `u32`. -/
structure FreeList where
  root : PageNr
  front : ℕ
  back : ℕ

/-- `FreeList::get_in_page` (free_list.rs): three-level indirect lookup of
entry `index`, descending from `depth` to `MAX_DEPTH`. -/
def FreeList.get_in_page (pager : Pager) (page_nr index depth : ℕ) : PageNr :=
  let child_index := index / entriesPerDepth depth
  let child := pager.pages page_nr child_index
  if h : depth < MAX_DEPTH then
    FreeList.get_in_page pager child (index % entriesPerDepth depth) (depth + 1)
  else
    child
termination_by MAX_DEPTH - depth
decreasing_by omega

/-- `FreeList::get` (free_list.rs). -/
def FreeList.get (fl : FreeList) (index : ℕ) (pager : Pager) : PageNr :=
  FreeList.get_in_page pager fl.root index 0

/-- `FreeList::shift_front` (free_list.rs): pops the front entry when the
window is nonempty; otherwise advances both ends of the window (the
source's deliberate compensation, spec section 9). -/
def FreeList.shift_front (fl : FreeList) (pager : Pager) :
    Option PageNr × FreeList :=
  if fl.front < fl.back then
    (some (fl.get fl.front pager), { fl with front := (fl.front + 1) % U32 })
  else
    (none, { fl with front := (fl.front + 1) % U32, back := (fl.back + 1) % U32 })

/-- `FreeList::pop_back` (free_list.rs): decrements `back` and returns the
entry there when the window is nonempty. -/
def FreeList.pop_back (fl : FreeList) (pager : Pager) :
    Option PageNr × FreeList :=
  if fl.front < fl.back then
    (some (fl.get (fl.back - 1) pager), { fl with back := fl.back - 1 })
  else
    (none, fl)

/-- `FreeList::reset_front` (free_list.rs). -/
def FreeList.reset_front (fl : FreeList) : FreeList :=
  { fl with front := 0 }

/-! ## The page allocator (database/src/allocator.rs)

The transaction handle `Allocator` holds the two persistent free lists and
`last_page` (the guarded `AllocatorState`) together with the two
transaction-local scratch vectors.  A Rust `Vec` used as a stack is
modelled as a `List` whose head is the vector's back, so `Vec::push` is
cons and `Vec::pop` takes the head. -/

/-- `AllocatorState` (allocator.rs): the persistent, checksummed part of
the allocator. -/
structure AllocatorState where
  previous_free : FreeList
  current_free : FreeList
  last_page : ℕ

/-- `AllocatorState::swap` (allocator.rs), run at snapshot time. -/
def AllocatorState.swap (s : AllocatorState) : AllocatorState :=
  { s with previous_free := s.current_free,
           current_free := s.previous_free.reset_front }

structure Allocator where
  state : AllocatorState
  append : List PageNr
  prepend : List PageNr

/-- `Allocator::allocate` (allocator.rs): pops the transaction-local
`append` list, else the back of `current_free`, else the back of
`previous_free`, else increments `last_page`; in every case the result is
marked writable before being returned. -/
def Allocator.allocate (a : Allocator) (pager : Pager) :
    PageNr × Allocator × Pager :=
  match a.append with
  | nr :: rest => (nr, { a with append := rest }, pager.enable_write nr)
  | [] =>
    match a.state.current_free.pop_back pager with
    | (some nr, cur) =>
      (nr, { a with state.current_free := cur }, pager.enable_write nr)
    | (none, cur) =>
      match a.state.previous_free.pop_back pager with
      | (some nr, prev) =>
        (nr, { a with state.current_free := cur, state.previous_free := prev },
          pager.enable_write nr)
      | (none, prev) =>
        let nr := (a.state.last_page + 1) % U32
        let s2 : AllocatorState :=
          { previous_free := prev, current_free := cur, last_page := nr }
        (nr, { a with state := s2 }, pager.enable_write nr)

/-- The allocation source claimed by the specification ("pops from
`append`, else `current.back`, else `previous.back`, else increments
`last_page`"), written from the spec's words for comparison with
`Allocator.allocate`. -/
def Allocator.allocateClaimed (a : Allocator) (pager : Pager) : PageNr :=
  match a.append with
  | nr :: _ => nr
  | [] =>
    if a.state.current_free.front < a.state.current_free.back then
      a.state.current_free.get (a.state.current_free.back - 1) pager
    else if a.state.previous_free.front < a.state.previous_free.back then
      a.state.previous_free.get (a.state.previous_free.back - 1) pager
    else
      (a.state.last_page + 1) % U32

/-! ## Persistent vectors (database/src/vec.rs)

The element type `T` enters only through `size_of::<T>()`, modelled as the
argument `tSize`. -/

/-- `elements_per_page::<T>()` (vec.rs): `PAGE_SIZE / size_of::<T>()`,
with Rust's truncating integer division. -/
def elements_per_page (tSize : ℕ) : ℕ := PAGE_SIZE / tSize

structure VecHeader where
  root : PageNr
  len : ℕ

/-- `VecHeader::pages::<T>` (vec.rs): the page count of the backing extent,
`(len + elements_per_page - 1) / elements_per_page`. -/
def VecHeader.pages (h : VecHeader) (tSize : ℕ) : ℕ :=
  (h.len + elements_per_page tSize - 1) / elements_per_page tSize

/-! ## The region change queue (server/src/region.rs, protocol/src/region.rs)

`Entry(RegionPos, u16, u128, ObserverChange)` is pushed into a
`BinaryHeap` (a max-heap: the greatest entry under `Ord` pops first).  The
payloads of `SetupStatic` (a message sender) and `SetupPlayer` (a player id
and character) are never read by `Entry::cmp` and are dropped from the
embedding. -/

structure RegionPos where
  x : ℕ
  z : ℕ

/-- The derived `Ord` of `RegionPos`: lexicographic on the fields in
declaration order, `x` then `z`. -/
def RegionPos.cmp (a b : RegionPos) : Ordering :=
  (compare a.x b.x).then (compare a.z b.z)

inductive ObserverChange where
  | setupStatic
  | setupDynamic
  | setupPlayer
  | teardownDynamic
  | teardownStatic
deriving DecidableEq

/-- A change-queue entry: region position, chebyshev distance from the
observer's center, observer uuid, and the change variant. -/
structure Entry where
  pos : RegionPos
  dist : ℕ
  uuid : ℕ
  change : ObserverChange

/-- `impl Ord for Entry` (server/src/region.rs), arm for arm. -/
def Entry.cmp (a b : Entry) : Ordering :=
  match a.change, b.change with
  | .setupStatic, .setupStatic =>
    (compare b.dist a.dist).then
      ((RegionPos.cmp a.pos b.pos).then (compare a.uuid b.uuid))
  | .setupStatic, .setupDynamic => .gt
  | .setupStatic, .setupPlayer => .gt
  | .setupStatic, .teardownDynamic => .gt
  | .setupStatic, .teardownStatic => .gt
  | .setupDynamic, .setupStatic => .lt
  | .setupDynamic, .setupDynamic =>
    (compare b.dist a.dist).then
      ((RegionPos.cmp a.pos b.pos).then (compare a.uuid b.uuid))
  | .setupDynamic, .setupPlayer => .gt
  | .setupDynamic, .teardownDynamic => .gt
  | .setupDynamic, .teardownStatic => .lt
  | .setupPlayer, .setupStatic => .lt
  | .setupPlayer, .setupDynamic => .lt
  | .setupPlayer, .setupPlayer =>
    (compare b.dist a.dist).then
      ((RegionPos.cmp a.pos b.pos).then (compare a.uuid b.uuid))
  | .setupPlayer, .teardownDynamic => .gt
  | .setupPlayer, .teardownStatic => .gt
  | .teardownDynamic, .setupStatic => .lt
  | .teardownDynamic, .setupDynamic => .lt
  | .teardownDynamic, .setupPlayer => .lt
  | .teardownDynamic, .teardownDynamic =>
    (compare a.dist b.dist).then
      ((RegionPos.cmp a.pos b.pos).then (compare a.uuid b.uuid))
  | .teardownDynamic, .teardownStatic => .gt
  | .teardownStatic, .setupStatic => .lt
  | .teardownStatic, .setupDynamic => .lt
  | .teardownStatic, .setupPlayer => .lt
  | .teardownStatic, .teardownDynamic => .lt
  | .teardownStatic, .teardownStatic =>
    (compare a.dist b.dist).then
      ((RegionPos.cmp a.pos b.pos).then (compare a.uuid b.uuid))

/-- The 4-tier rank of a change variant in the claimed priority order:
setup-static, setup-dynamic, setup-player, then the teardowns. -/
def ObserverChange.tier : ObserverChange → ℕ
  | .setupStatic => 0
  | .setupDynamic => 1
  | .setupPlayer => 2
  | .teardownDynamic => 3
  | .teardownStatic => 4

/-- The deterministic tie-break shared by every same-variant arm: region
position, then observer uuid. -/
def Entry.tieBreak (a b : Entry) : Ordering :=
  (RegionPos.cmp a.pos b.pos).then (compare a.uuid b.uuid)

/-- The amended description of `Entry::cmp` (claim C3 corrected): within a
tier, setup variants order by descending-on-compare distance (ascending
pop order) and the teardown variants by ascending-on-compare distance
(descending pop order), ties broken by region position then observer id;
across tiers the higher-priority entry compares greater — except that a
`SetupDynamic` entry and a `TeardownStatic` entry compare `Less` in both
directions. -/
def Entry.cmpAmended (a b : Entry) : Ordering :=
  if a.change.tier = b.change.tier then
    if a.change.tier ≤ 2 then (compare b.dist a.dist).then (a.tieBreak b)
    else (compare a.dist b.dist).then (a.tieBreak b)
  else if a.change = .setupDynamic ∧ b.change = .teardownStatic then .lt
  else if a.change = .teardownStatic ∧ b.change = .setupDynamic then .lt
  else if a.change.tier < b.change.tier then .gt
  else .lt

/-! ## File extent levels (database/src/cursor.rs, file.rs) -/

inductive PageLevel where
  | L0
  | L1
  | L2
deriving DecidableEq

/-- `PageLevel::from_pages` (cursor.rs).  The source returns
`Option<PageLevel>` (`None` for zero pages) and hits `panic!()` for more
than 4194304 pages; the panic is modelled as `Except.error`. -/
def PageLevel.from_pages (pages : ℕ) : Except Unit (Option PageLevel) :=
  if pages = 0 then .ok none
  else if pages = 1 then .ok (some .L0)
  else if pages ≤ 2048 then .ok (some .L1)
  else if pages ≤ 4194304 then .ok (some .L2)
  else .error ()

/-- The two root-level computations that open `reallocate` (cursor.rs),
current page count first; a panic in either aborts the reallocation before
any page is touched. -/
def reallocateLevels (current_pages new_pages : ℕ) :
    Except Unit (Option PageLevel × Option PageLevel) := do
  let c ← PageLevel.from_pages current_pages
  let n ← PageLevel.from_pages new_pages
  pure (c, n)

structure FileHeader where
  root : PageNr
  len : ℕ

/-- `FileHeader::pages` (file.rs): `(len + PAGE_SIZE - 1) / PAGE_SIZE`,
the page count handed to `reallocate` by `FileGuard::set_len`. -/
def FileHeader.pages (h : FileHeader) : ℕ :=
  (h.len + PAGE_SIZE - 1) / PAGE_SIZE

/-! ## The header page (database/src/header.rs)

`State::checksum` is the SHA3-512 digest of the state's bytes; the digest
function itself is uninterpreted here and enters as a parameter `H`, and
the 256-byte format tag and 64-byte checksum are values of parameter types
`F` and `C`.  `Header::validate`'s two `io::Error` messages ("database
format mismatch" and "Corrupted database") are the two constructors of
`ValidateError`. -/

/-- `State` (header.rs): version counter, allocator state, root extent
page number and logical length. -/
structure DbState where
  version : ℕ
  allocator : AllocatorState
  root_nr : PageNr
  root_len : ℕ

/-- `Snapshot` (header.rs): a state together with its stored checksum. -/
structure Snapshot (C : Type) where
  state : DbState
  checksum : C

/-- `Header` (header.rs): the format tag and the two snapshot slots of
page 0. -/
structure Header (F C : Type) where
  format : F
  snapshots : Fin 2 → Snapshot C

/-- `Snapshot::is_valid` (header.rs): the stored checksum equals the
recomputed checksum of the state fields. -/
def Snapshot.is_valid {C : Type} [DecidableEq C] (s : Snapshot C)
    (H : DbState → C) : Bool :=
  decide (H s.state = s.checksum)

/-- `Header::valid_snapshot` (header.rs): slot `index` is returned iff its
version's parity equals the slot index and its checksum matches. -/
def Header.valid_snapshot {F C : Type} [DecidableEq C] (h : Header F C)
    (H : DbState → C) (index : Fin 2) : Option (Snapshot C) :=
  if (h.snapshots index).state.version % 2 = index.val % 2 ∧
      (h.snapshots index).is_valid H = true then
    some (h.snapshots index)
  else
    none

/-- Rust's derived `PartialOrd`/`Ord` `<=` on `Option<u64>`: `None`
precedes every `Some`. -/
def optionVersionLe : Option ℕ → Option ℕ → Bool
  | none, _ => true
  | some _, none => false
  | some a, some b => decide (a ≤ b)

/-- `Header::last_snapshot` (header.rs): of the valid slots, the one with
the greater version. -/
def Header.last_snapshot {F C : Type} [DecidableEq C] (h : Header F C)
    (H : DbState → C) : Option (Snapshot C) :=
  if optionVersionLe ((h.valid_snapshot H 0).map fun s => s.state.version)
      ((h.valid_snapshot H 1).map fun s => s.state.version) = true then
    h.valid_snapshot H 1
  else
    h.valid_snapshot H 0

inductive ValidateError where
  | formatMismatch
  | corrupted
deriving DecidableEq

/-- `Header::validate` (header.rs). -/
def Header.validate {F C : Type} [DecidableEq F] [DecidableEq C]
    (h : Header F C) (fmt : F) (H : DbState → C) : Except ValidateError DbState :=
  if h.format ≠ fmt then
    .error .formatMismatch
  else
    match h.last_snapshot H with
    | none => .error .corrupted
    | some s => .ok s.state

/-- Concrete header used by the witness of claim C1: slot 0 is stored with
a wrong checksum, slot 1 (version 1) checksums correctly under the digest
`fun st => st.version`. -/
def headerWitnessInput : Header ℕ ℕ :=
  { format := 7,
    snapshots := fun i =>
      if i.val = 0 then ⟨⟨0, ⟨⟨0, 0, 0⟩, ⟨0, 0, 0⟩, 1⟩, 0, 0⟩, 999⟩
      else ⟨⟨1, ⟨⟨0, 0, 0⟩, ⟨0, 0, 0⟩, 1⟩, 0, 0⟩, 1⟩ }

/-! ## The interpolation buffer (util/src/interpolation.rs)

`InterpolationBuffer<T, N>` instantiated at the `f32` implementation of
`Interpolate`, with `f32` arithmetic modelled exactly over `ℚ`.  The ring
`data: [T; N]` is modelled as a total map read and written at slot
`k % N`; slot `k % N` holds the retained sample of tick `k` whenever
`last − (N−1) ≤ k ≤ last`.  Rust's saturating `usize` subtraction is
`Nat`'s truncated subtraction, and Rust's saturating `f32 as usize` cast
is `Int.toNat ⌊x⌋` (both truncate toward zero on the non-negative reals
and clamp negatives to 0). -/

/-- `impl Interpolate for f32` (interpolation.rs): `a * (1 - t) + b * t`. -/
def interpolate (a b t : ℚ) : ℚ := a * (1 - t) + b * t

structure InterpolationBuffer (N : ℕ) where
  data : ℕ → ℚ
  last : ℕ

/-- `InterpolationBuffer::new` (interpolation.rs). -/
def InterpolationBuffer.init (N : ℕ) (value : ℚ) (last : ℕ) :
    InterpolationBuffer N :=
  ⟨fun _ => value, last⟩

/-- `InterpolationBuffer::last` (interpolation.rs), the accessor returning
`self.data[self.last % N]` (named `lastSample` here because `last` is the
field). -/
def InterpolationBuffer.lastSample {N : ℕ} (b : InterpolationBuffer N) : ℚ :=
  b.data (b.last % N)

/-- `InterpolationBuffer::insert_old` (interpolation.rs): writes slot
`x % N` only when `x ≥ last.saturating_sub(N - 1)`. -/
def InterpolationBuffer.insert_old {N : ℕ} (b : InterpolationBuffer N)
    (x : ℕ) (y : ℚ) : InterpolationBuffer N :=
  if b.last - (N - 1) ≤ x then
    { b with data := fun k => if k = x % N then y else b.data k }
  else
    b

/-- The gap-filling loop of `insert` (interpolation.rs):
`for i in last+1..x+1` writes tick `i` with
`interpolate(last_y, y, (i - last) / (x - last))`; embedded as recursion
on the remaining iteration count. -/
def InterpolationBuffer.insertLoop {N : ℕ} (lastY y : ℚ) (lastTick x : ℕ)
    (i : ℕ) (b : InterpolationBuffer N) : InterpolationBuffer N :=
  if _h : i ≤ x then
    InterpolationBuffer.insertLoop lastY y lastTick x (i + 1)
      (b.insert_old i
        (interpolate lastY y (((i - lastTick : ℕ) : ℚ) / ((x - lastTick : ℕ) : ℚ))))
  else
    b
termination_by x + 1 - i
decreasing_by omega

/-- `InterpolationBuffer::insert` (interpolation.rs). -/
def InterpolationBuffer.insert {N : ℕ} (b : InterpolationBuffer N) (x : ℕ)
    (y : ℚ) : InterpolationBuffer N :=
  if b.last < x then
    { InterpolationBuffer.insertLoop (b.data (b.last % N)) y b.last x
        (b.last + 1) b with last := x }
  else
    { b.insert_old x y with last := x }

/-- Rust's saturating `f32 as usize` cast, for a `ℚ`-modelled float. -/
def ratAsUsize (x : ℚ) : ℕ := (Int.floor x).toNat

/-- `InterpolationBuffer::get` (interpolation.rs). -/
def InterpolationBuffer.get {N : ℕ} (b : InterpolationBuffer N) (x : ℚ) : ℚ :=
  if b.last ≤ ratAsUsize x then
    b.data (b.last % N)
  else if b.last - (N - 1) ≤ ratAsUsize x then
    interpolate (b.data (ratAsUsize x % N)) (b.data ((ratAsUsize x + 1) % N))
      (x - (ratAsUsize x : ℚ))
  else
    b.data ((b.last + 1) % N)

/-! ## The per-tick NPC ground update (server/src/world.rs, `update_npcs`)

The airborne branch for a single NPC, with `f32` arithmetic modelled
exactly over `ℚ`.  `heights` is the flattened heightmap read at
`z * size + x`, and `size` is `Configuration::full_size()`.  The embedding
keeps the source's corner reads verbatim: the fourth corner `y11` is read
at `heights[z1 * size + x0]` — the same cell as `y01` — although the
bindings compute `x1`. -/

/-- The airborne-NPC position update of `update_npcs` (world.rs lines
124–148): clamp the cell corners, fall by `gravity · period`, snap to the
interpolated ground + 1 and report the grounded flag. -/
def updateAirborneNpcY (heights : ℕ → ℕ) (size : ℕ)
    (x y z gravityY period : ℚ) : ℚ × Bool :=
  let max_coord := size - 1
  let x0 := min (ratAsUsize x) max_coord
  let z0 := min (ratAsUsize z) max_coord
  let x1 := min (x0 + 1) max_coord
  let z1 := min (z0 + 1) max_coord
  let t_x := x - (⌊x⌋ : ℚ)
  let t_z := z - (⌊z⌋ : ℚ)
  let y00 : ℚ := heights (z0 * size + x0)
  let y10 : ℚ := heights (z0 * size + x1)
  let y01 : ℚ := heights (z1 * size + x0)
  let y11 : ℚ := heights (z1 * size + x0)
  let min_y :=
    interpolate (interpolate y00 y10 t_x) (interpolate y01 y11 t_x) t_z + 1
  let yf := y + gravityY * period
  if yf ≤ min_y then (min_y, true) else (yf, false)

/-- The update as the claim states it (the fourth bilinear corner read at
`(x1, z1)`), written from the claim's words for comparison with
`updateAirborneNpcY`. -/
def updateAirborneNpcYClaimed (heights : ℕ → ℕ) (size : ℕ)
    (x y z gravityY period : ℚ) : ℚ × Bool :=
  let max_coord := size - 1
  let x0 := min (ratAsUsize x) max_coord
  let z0 := min (ratAsUsize z) max_coord
  let x1 := min (x0 + 1) max_coord
  let z1 := min (z0 + 1) max_coord
  let t_x := x - (⌊x⌋ : ℚ)
  let t_z := z - (⌊z⌋ : ℚ)
  let y00 : ℚ := heights (z0 * size + x0)
  let y10 : ℚ := heights (z0 * size + x1)
  let y01 : ℚ := heights (z1 * size + x0)
  let y11 : ℚ := heights (z1 * size + x1)
  let min_y :=
    interpolate (interpolate y00 y10 t_x) (interpolate y01 y11 t_x) t_z + 1
  let yf := y + gravityY * period
  if yf ≤ min_y then (min_y, true) else (yf, false)

/-- The failing heightmap for claim C4: a 4×4 grid (size 4) that is 0
everywhere except height 8 at grid point `(x, z) = (2, 2)` (flat index
`2 * 4 + 2 = 10`). -/
def heightsCex : ℕ → ℕ := fun n => if n = 10 then 8 else 0

/-! ## The B+ tree (database/src/tree/) over the paged store

An executable model of `Tree<u64, u64>` and the storage layer it runs on
(`lock.rs`, `allocator.rs`, `free_list.rs`, `tree/node.rs`, `tree/leaf.rs`,
`tree/branch.rs`, `tree/cursor.rs`, `tree/mod.rs`).  A page is modelled by
its typed view: `leaf`/`branch` for tree nodes (the byte layout of keys,
values, children and the 16-bit footer is abstracted to lists whose
lengths are the footer count) and `raw` for free-list indirect pages
(a sparse map of u32 words, zero-filled like a fresh mmap).  Every Rust
slice-indexing, `copy_within`, `copy_from_slice` and usize-underflow panic
is modelled as `Except.error`; recursion over the page graph carries fuel
and an exhausted fuel is the distinct error `fuelExhausted` (never hit in
the evaluated runs). -/

inductive BPanic where
  | indexOutOfBounds
  | sliceLenMismatch
  | unwrapFailed
  | invalidNode
  | fuelExhausted
deriving DecidableEq

/-- Computation that may hit a Rust panic. -/
abbrev BM (α : Type) : Type := Except BPanic α

/-- Checked slice read `l[i]`. -/
def getIdx {α : Type} (l : List α) (i : ℕ) : BM α :=
  if h : i < l.length then pure (l.get ⟨i, h⟩) else .error .indexOutOfBounds

/-- Checked slice write `l[i] = a`. -/
def setIdx {α : Type} (l : List α) (i : ℕ) (a : α) : BM (List α) :=
  if i < l.length then pure (l.set i a) else .error .indexOutOfBounds

/-- Element insertion at `i` (the net effect of `set_len(len+1)` followed
by `copy_within(i..len, i+1)` and a write at `i`); the source panics when
`i > len`. -/
def insertIdx {α : Type} (l : List α) (i : ℕ) (a : α) : BM (List α) :=
  if i ≤ l.length then pure (l.take i ++ a :: l.drop i) else .error .indexOutOfBounds

/-- Element removal at `i` (the net effect of `copy_within(i+1.., i)`
followed by `set_len(len-1)`); the source panics when `i ≥ len`. -/
def removeIdx {α : Type} (l : List α) (i : ℕ) : BM (List α) :=
  if i < l.length then pure (l.take i ++ l.drop (i + 1)) else .error .indexOutOfBounds

inductive Node where
  | leaf (keys : List ℕ) (vals : List ℕ)
  | branch (keys : List ℕ) (children : List ℕ)
  | raw (words : List (ℕ × ℕ))
deriving DecidableEq

/-- `NodePage::len` (tree/node.rs): the footer count — keys of a leaf,
children of a branch. -/
def Node.nodeLen : Node → ℕ
  | .leaf ks _ => ks.length
  | .branch _ ch => ch.length
  | .raw _ => 0

/-- The `u32`-array view of a page (`FreeListPage`); only `raw` pages are
ever read this way in the modelled executions. -/
def Node.word : Node → ℕ → ℕ
  | .raw ws, i =>
    match ws.find? (fun p => p.1 == i) with
    | some p => p.2
    | none => 0
  | _, _ => 0

/-- A `u32`-array write; free-list writes only ever target `raw` pages. -/
def Node.setWord : Node → ℕ → ℕ → BM Node
  | .raw ws, i, v => pure (.raw ((i, v) :: ws.filter (fun p => p.1 != i)))
  | _, _, _ => .error .invalidNode

/-- The mapped page file: page number to content, zero-filled (`raw []`)
where never written. -/
def storeGet (s : List (ℕ × Node)) (nr : ℕ) : Node :=
  match s.find? (fun p => p.1 == nr) with
  | some p => p.2
  | none => .raw []

def storeSet (s : List (ℕ × Node)) (nr : ℕ) (n : Node) : List (ℕ × Node) :=
  (nr, n) :: s.filter (fun p => p.1 != nr)

/-- The database state seen through a `Lock` (lock.rs): the page store,
the writable bitset, and the guarded `AllocatorState`. -/
structure TreeDB where
  store : List (ℕ × Node)
  writable : ℕ → Bool
  alloc : AllocatorState

def TreeDB.setPage (db : TreeDB) (nr : ℕ) (n : Node) : TreeDB :=
  { db with store := storeSet db.store nr n }

/-- The `Pager` view of a `TreeDB` used by the free-list code. -/
def TreeDB.pagerView (db : TreeDB) : Pager :=
  ⟨fun nr i => (storeGet db.store nr).word i, db.writable⟩

/-- A live `Allocator` transaction handle (allocator.rs) over a
`TreeDB`. -/
structure Ctx where
  db : TreeDB
  append : List PageNr
  prepend : List PageNr

/-- `Allocator::allocate` run on the handle (delegates to
`Allocator.allocate`). -/
def Ctx.allocate (c : Ctx) : ℕ × Ctx :=
  let a : Allocator := ⟨c.db.alloc, c.append, c.prepend⟩
  let r := a.allocate c.db.pagerView
  (r.1,
    ⟨{ c.db with alloc := r.2.1.state, writable := r.2.2.writable },
      r.2.1.append, r.2.1.prepend⟩)

def Ctx.can_write (c : Ctx) (nr : ℕ) : Bool := c.db.writable nr

/-- `Allocator::deallocate` (allocator.rs). -/
def Ctx.deallocate (c : Ctx) (nr : ℕ) : Ctx :=
  if c.can_write nr then
    { c with append := nr :: c.append }
  else
    let c2 := { c with prepend := nr :: c.prepend }
    let r := c2.db.alloc.current_free.shift_front c2.db.pagerView
    let c3 := { c2 with db.alloc.current_free := r.2 }
    match r.1 with
    | some old_nr => { c3 with append := old_nr :: c3.append }
    | none => c3

/-- `Allocator::reallocate` (allocator.rs). -/
def Ctx.reallocate (c : Ctx) (nr : ℕ) : ℕ × Ctx :=
  let c2 := { c with prepend := nr :: c.prepend }
  let r := c2.db.alloc.current_free.shift_front c2.db.pagerView
  let c3 := { c2 with db.alloc.current_free := r.2 }
  match r.1 with
  | some new_nr =>
    (new_nr, { c3 with db.writable := fun k => if k = new_nr then true else c3.db.writable k })
  | none => c3.allocate

/-- `FreeList::set_inner` (free_list.rs): copy-on-write descent into the
three-level entry array, writing `value` at `index`.  The descent depth is
bounded by `MAX_DEPTH = 2`, so the structural `fuel` (passed as
`MAX_DEPTH + 1` at the root) never runs out. -/
def setInnerFL : ℕ → Ctx → ℕ → ℕ → ℕ → ℕ → BM (ℕ × Ctx)
  | 0, _, _, _, _, _ => .error .fuelExhausted
  | fuel + 1, c, page_nr, index, value, depth => do
    let (nr2, c2) ←
      if page_nr = NULL_PAGE_NR then do
        let (nr2, ca) := c.allocate
        pure (nr2, { ca with db := ca.db.setPage nr2 (.raw []) })
      else if c.can_write page_nr then
        pure (page_nr, c)
      else do
        let (new_nr, ca) := c.reallocate page_nr
        pure (new_nr, { ca with db := ca.db.setPage new_nr (storeGet ca.db.store page_nr) })
    let child_index := index / entriesPerDepth depth
    if depth < MAX_DEPTH then do
      let child := (storeGet c2.db.store nr2).word child_index
      let (child2, c3) ←
        setInnerFL fuel c2 child (index % entriesPerDepth depth) value (depth + 1)
      let n2 ← (storeGet c3.db.store nr2).setWord child_index child2
      pure (nr2, { c3 with db := c3.db.setPage nr2 n2 })
    else do
      let n2 ← (storeGet c2.db.store nr2).setWord child_index value
      pure (nr2, { c2 with db := c2.db.setPage nr2 n2 })

/-- `FreeList::set` (free_list.rs): `current_free.root` is reassigned to
the root returned by `set_inner`. -/
def flSet (c : Ctx) (index value : ℕ) : BM Ctx := do
  let (root2, c2) ←
    setInnerFL (MAX_DEPTH + 1) c c.db.alloc.current_free.root index value 0
  pure { c2 with db.alloc.current_free.root := root2 }

/-- `FreeList::append` (free_list.rs). -/
def flAppend (c : Ctx) : List ℕ → BM Ctx
  | [] => pure c
  | nr :: rest => do
    let c2 ← flSet c c.db.alloc.current_free.back nr
    let c3 := { c2 with db.alloc.current_free.back :=
      (c2.db.alloc.current_free.back + 1) % U32 }
    flAppend c3 rest

/-- The write loop of `FreeList::prepend` (free_list.rs). -/
def flPrependLoop (c : Ctx) (index : ℕ) : List ℕ → BM Ctx
  | [] => pure c
  | nr :: rest => do
    let c2 ← flSet c index nr
    flPrependLoop c2 ((index + 1) % U32) rest

/-- `FreeList::prepend` (free_list.rs): starts at `front - nrs.len()` in
wrapping `u32` arithmetic. -/
def flPrepend (c : Ctx) (nrs : List ℕ) : BM Ctx :=
  flPrependLoop c ((c.db.alloc.current_free.front + U32 - nrs.length % U32) % U32) nrs

/-- `Allocator::resolve` (allocator.rs), run on handle drop: flush
`prepend` then `append` until both scratch lists stay empty. -/
def resolveLoop : ℕ → Ctx → BM Ctx
  | 0, _ => .error .fuelExhausted
  | fuel + 1, c =>
    if c.prepend = [] ∧ c.append = [] then
      pure c
    else do
      let p := c.prepend
      let c2 ← flPrepend { c with prepend := [] } p
      let a := c2.append
      let c3 ← flAppend { c2 with append := [] } a
      resolveLoop fuel c3

/-- `Lock::allocate` (lock.rs): a fresh `Allocator` handle allocates once
and is dropped (resolved) immediately. -/
def TreeDB.lockAllocate (db : TreeDB) : BM (ℕ × TreeDB) := do
  let (nr, c) := Ctx.allocate ⟨db, [], []⟩
  let c2 ← resolveLoop 64 c
  pure (nr, c2.db)

/-- `Lock::deallocate` (lock.rs). -/
def TreeDB.lockDeallocate (db : TreeDB) (nr : ℕ) : BM TreeDB := do
  let c ← resolveLoop 64 (Ctx.deallocate ⟨db, [], []⟩ nr)
  pure c.db

/-- `Lock::reallocate` (lock.rs). -/
def TreeDB.lockReallocate (db : TreeDB) (nr : ℕ) : BM (ℕ × TreeDB) := do
  let (new_nr, c) := Ctx.reallocate ⟨db, [], []⟩ nr
  let c2 ← resolveLoop 64 c
  pure (new_nr, c2.db)

/-- `Lock::allocate_zeroed` (lock.rs). -/
def TreeDB.lockAllocateZeroed (db : TreeDB) : BM (ℕ × TreeDB) := do
  let (nr, db2) ← db.lockAllocate
  pure (nr, db2.setPage nr (.raw []))

/-- `Lock::page_mut` (lock.rs) on a `&mut PageNr`: returns the (possibly
relocated) page number. -/
def TreeDB.lockPageMut (db : TreeDB) (nr : ℕ) : BM (ℕ × TreeDB) :=
  if nr = NULL_PAGE_NR then
    db.lockAllocateZeroed
  else if db.writable nr then
    pure (nr, db)
  else do
    let (new_nr, db2) ← db.lockReallocate nr
    pure (new_nr, db2.setPage new_nr (storeGet db2.store nr))

/-- `Lock::try_page_mut` (lock.rs). -/
def TreeDB.tryPageMut (db : TreeDB) (nr : ℕ) : Option ℕ :=
  if db.writable nr then some nr else none

/-- `tree::node::allocate` (tree/node.rs): allocate a page, unwrap
`try_page_mut`, and write the footer (an empty leaf or branch). -/
def allocNode (db : TreeDB) (is_leaf : Bool) : BM (ℕ × TreeDB) := do
  let (nr, db2) ← db.lockAllocate
  match db2.tryPageMut nr with
  | none => .error .unwrapFailed
  | some _ =>
    pure (nr, db2.setPage nr (if is_leaf then .leaf [] [] else .branch [] []))

/-- `Leaf::order` (tree/leaf.rs): node capacity from the page size, key
size, value size and value alignment. -/
def leafOrderOf (keySize valSize valAlign : ℕ) : ℕ :=
  let sum_size := keySize + valSize
  let order := (PAGE_SIZE - 2) / sum_size
  let mismatch := (order * keySize) % valAlign
  if mismatch = 0 then order
  else
    let offset := valAlign - mismatch
    if order * sum_size + offset ≤ PAGE_SIZE - 2 then order else order - 1

/-- `Branch::key_order` (tree/branch.rs). -/
def branchKeyOrderOf (keySize : ℕ) : ℕ :=
  let child_align := 4
  let sum_size := keySize + 4
  let order := (PAGE_SIZE - 6) / sum_size
  let mismatch := (order * keySize) % child_align
  if mismatch = 0 then order
  else
    let offset := child_align - mismatch
    if order * sum_size + offset ≤ PAGE_SIZE - 6 then order else order - 1

/-- `Branch::order` (tree/branch.rs): `key_order + 1`. -/
def branchOrderOf (keySize : ℕ) : ℕ := branchKeyOrderOf keySize + 1

/-- The evaluated instantiation is `Tree<[u8; 1024], [u8; 614]>`
(`bytemuck` derives `Pod` for byte arrays and `[u8; N]` is `Ord`), whose
leaf order is `(8192 − 2) / (1024 + 614) = 5`; key and value *contents*
enter the tree code only through `Ord`, so they are modelled as `ℕ`.
The split panic proved below fires at the first root-leaf split for every
key/value size — e.g. order 511 for `Tree<u64, u64>` (checked at
`leafOrderOf 8 8 8 = 511` below); the small order only keeps the
evaluated run short. -/
def LEAF_ORDER : ℕ := leafOrderOf 1024 614 1

/-- The branch order of `Tree<[u8; 1024], [u8; 614]>`:
`(8192 − 6) / 1028 + 1 = 8`. -/
def BRANCH_ORDER : ℕ := branchOrderOf 1024

/-- Rust core's `slice::binary_search` (the loop shipped since 1.52):
`mid = left + size / 2` with `size = right − left`; `Ok mid` on an exact
match, otherwise `Err left`.  The probe at `mid` is `get_unchecked` and is
in bounds whenever `right ≤ len`, which every call here satisfies. -/
def binarySearchLoop (l : List ℕ) (key : ℕ) : ℕ → ℕ → ℕ → ℕ ⊕ ℕ
  | 0, left, _ => .inr left
  | fuel + 1, left, right =>
    if left < right then
      let mid := left + (right - left) / 2
      let v := l.getD mid 0
      if v < key then binarySearchLoop l key fuel (mid + 1) right
      else if key < v then binarySearchLoop l key fuel left mid
      else .inl mid
    else
      .inr left

/-- The fuel `l.length + 1` always outlasts the loop: `right − left`
shrinks on every iteration. -/
def binarySearch (l : List ℕ) (key : ℕ) : ℕ ⊕ ℕ :=
  binarySearchLoop l key (l.length + 1) 0 l.length

/-- `Leaf::insert` (tree/leaf.rs). -/
def leafInsert (keys vals : List ℕ) (index k v : ℕ) : BM (List ℕ × List ℕ) := do
  let keys2 ← insertIdx keys index k
  let vals2 ← insertIdx vals index v
  pure (keys2, vals2)

/-- `Leaf::delete` (tree/leaf.rs). -/
def leafDelete (keys vals : List ℕ) (index : ℕ) : BM (List ℕ × List ℕ) := do
  let keys2 ← removeIdx keys index
  let vals2 ← removeIdx vals index
  pure (keys2, vals2)

/-- `Leaf::split` (tree/leaf.rs): the upper half moves to `other`; the
`copy_from_slice` calls panic unless the leaf is exactly full. -/
def leafSplit (keys vals : List ℕ) :
    BM ((List ℕ × List ℕ) × (List ℕ × List ℕ)) :=
  if keys.length = LEAF_ORDER then
    let mid := (LEAF_ORDER + 1) / 2
    pure ((keys.take mid, vals.take mid), (keys.drop mid, vals.drop mid))
  else
    .error .sliceLenMismatch

/-- `Leaf::shift_left` (tree/leaf.rs): borrow the right sibling's first
entry; the source inserts it at `self.len() − 1` (not at the end) and
returns the right sibling's new first key. -/
def leafShiftLeft (selfK selfV rightK rightV : List ℕ) :
    BM ((List ℕ × List ℕ) × (List ℕ × List ℕ) × ℕ) := do
  if selfK.length = 0 then .error .indexOutOfBounds
  else do
    let rk ← getIdx rightK 0
    let rv ← getIdx rightV 0
    let (sk, sv) ← leafInsert selfK selfV (selfK.length - 1) rk rv
    let (rk2, rv2) ← leafDelete rightK rightV 0
    let sep ← getIdx rk2 0
    pure ((sk, sv), (rk2, rv2), sep)

/-- `Leaf::shift_right` (tree/leaf.rs): donate the left node's last entry
to the right node's front; returns the moved key. -/
def leafShiftRight (selfK selfV rightK rightV : List ℕ) :
    BM ((List ℕ × List ℕ) × (List ℕ × List ℕ) × ℕ) := do
  if selfK.length = 0 then .error .indexOutOfBounds
  else do
    let index := selfK.length - 1
    let key ← getIdx selfK index
    let v ← getIdx selfV index
    let (rk2, rv2) ← leafInsert rightK rightV 0 key v
    pure ((selfK.take index, selfV.take index), (rk2, rv2), key)

/-- `Leaf::merge` (tree/leaf.rs). -/
def leafMerge (selfK selfV rightK rightV : List ℕ) : List ℕ × List ℕ :=
  (selfK ++ rightK, selfV ++ rightV)

/-- `Branch::search` (tree/branch.rs): an exact separator match descends
to the right of the separator. -/
def branchSearch (keys : List ℕ) (key : ℕ) : ℕ :=
  match binarySearch keys key with
  | .inl i => i + 1
  | .inr i => i

/-- `Branch::insert_right` (tree/branch.rs): key at `key_index`, child at
`key_index + 1`; `copy_within` panics on an empty branch or when
`key_index` exceeds the key count. -/
def branchInsertRight (keys children : List ℕ) (key_index k child : ℕ) :
    BM (List ℕ × List ℕ) := do
  if children.length = 0 then .error .indexOutOfBounds
  else do
    let keys2 ← insertIdx keys key_index k
    let children2 ← insertIdx children (key_index + 1) child
    pure (keys2, children2)

/-- `Branch::insert_left` (tree/branch.rs): key and child both at
`key_index`. -/
def branchInsertLeft (keys children : List ℕ) (key_index k child : ℕ) :
    BM (List ℕ × List ℕ) := do
  if children.length = 0 then .error .indexOutOfBounds
  else do
    let keys2 ← insertIdx keys key_index k
    let children2 ← insertIdx children key_index child
    pure (keys2, children2)

/-- `Branch::delete_left` (tree/branch.rs): removes `keys[key_index]` and
`children[key_index]`. -/
def branchDeleteLeft (keys children : List ℕ) (key_index : ℕ) :
    BM (List ℕ × List ℕ) := do
  let keys2 ← removeIdx keys key_index
  let children2 ← removeIdx children key_index
  pure (keys2, children2)

/-- `Branch::delete_right` (tree/branch.rs): removes `keys[key_index]`
and `children[key_index + 1]`. -/
def branchDeleteRight (keys children : List ℕ) (key_index : ℕ) :
    BM (List ℕ × List ℕ) := do
  let keys2 ← removeIdx keys key_index
  let children2 ← removeIdx children (key_index + 1)
  pure (keys2, children2)

/-- `Branch::split` (tree/branch.rs): `other` takes `keys[mid..]` and
`children[mid..]`, the separator `keys[mid − 1]` is returned and the left
node keeps `mid` children. -/
def branchSplit (keys children : List ℕ) :
    BM ((List ℕ × List ℕ) × (List ℕ × List ℕ) × ℕ) :=
  if children.length = BRANCH_ORDER then do
    let mid := (BRANCH_ORDER + 1) / 2
    let sep ← getIdx keys (mid - 1)
    pure ((keys.take (mid - 1), children.take mid),
      (keys.drop mid, children.drop mid), sep)
  else
    .error .sliceLenMismatch

/-- `Branch::left_key` (tree/branch.rs): the first key of the leftmost
leaf under `page_nr`. -/
def leftKeyAux (db : TreeDB) : ℕ → ℕ → BM ℕ
  | 0, _ => .error .fuelExhausted
  | fuel + 1, page_nr =>
    match storeGet db.store page_nr with
    | .branch _ ch => do
      let c0 ← getIdx ch 0
      leftKeyAux db fuel c0
    | .leaf ks _ => getIdx ks 0
    | .raw _ => .error .invalidNode

def branchLeftKey (db : TreeDB) (children : List ℕ) : BM ℕ := do
  let c0 ← getIdx children 0
  leftKeyAux db 64 c0

/-- `Branch::shift_left` (tree/branch.rs).  The source inserts at
`key_index = self.page.len()`, one past the key slots, so the
`copy_within` range panics whenever it is reached; the embedding preserves
that through `branchInsertRight`'s bound check. -/
def branchShiftLeft (db : TreeDB) (selfK selfC rightK rightC : List ℕ) :
    BM ((List ℕ × List ℕ) × (List ℕ × List ℕ) × ℕ) := do
  let left_key ← branchLeftKey db rightC
  let key ← getIdx rightK 0
  let rc0 ← getIdx rightC 0
  let (sk, sc) ← branchInsertRight selfK selfC selfC.length left_key rc0
  let (rk2, rc2) ← branchDeleteLeft rightK rightC 0
  pure ((sk, sc), (rk2, rc2), key)

/-- `Branch::shift_right` (tree/branch.rs).  The source reads
`self.keys()[self.page.len() − 1]`, one past the key slots, so the read
panics whenever it is reached; the embedding preserves that through
`getIdx`. -/
def branchShiftRight (db : TreeDB) (selfK selfC rightK rightC : List ℕ) :
    BM ((List ℕ × List ℕ) × (List ℕ × List ℕ) × ℕ) := do
  let left_key ← branchLeftKey db rightC
  if selfC.length = 0 then .error .indexOutOfBounds
  else do
    let index := selfC.length - 1
    let key ← getIdx selfK index
    let ci ← getIdx selfC (index - 1)
    let (rk2, rc2) ← branchInsertLeft rightK rightC 0 left_key ci
    let (sk2, sc2) ← branchDeleteRight selfK selfC index
    pure ((sk2, sc2), (rk2, rc2), key)

/-- `Branch::merge` (tree/branch.rs): the separator is the merged right
node's leftmost key; panics (underflow) on an empty left node. -/
def branchMerge (db : TreeDB) (selfK selfC rightK rightC : List ℕ) :
    BM (List ℕ × List ℕ) := do
  let key ← branchLeftKey db rightC
  if selfC.length = 0 then .error .indexOutOfBounds
  else pure (selfK ++ key :: rightK, selfC ++ rightC)

/-- `Cursor` (tree/cursor.rs): the root-to-leaf path as `(page_nr, index)`
entries.  The source pushes root-first and reverses; here the list is
built leaf-first directly, so `entries.head` is the leaf level and the
root level sits at the end, as after the source's `reverse()`. -/
structure Cursor where
  entries : List (ℕ × ℕ)
  key : Option ℕ

def cursorSetEntry (c : Cursor) (i : ℕ) (e : ℕ × ℕ) : BM Cursor := do
  let entries2 ← setIdx c.entries i e
  pure ⟨entries2, c.key⟩

/-- The descent loop of `Cursor::new` (tree/cursor.rs). -/
def cursorDescend (db : TreeDB) (key : ℕ) :
    ℕ → ℕ → List (ℕ × ℕ) → BM (List (ℕ × ℕ) × Option ℕ)
  | 0, _, _ => .error .fuelExhausted
  | fuel + 1, page_nr, acc =>
    if page_nr = NULL_PAGE_NR then
      pure (acc, some key)
    else
      match storeGet db.store page_nr with
      | .branch ks ch => do
        let index := branchSearch ks key
        let child ← getIdx ch index
        cursorDescend db key fuel child ((page_nr, index) :: acc)
      | .leaf ks _ =>
        match binarySearch ks key with
        | .inl i => pure ((page_nr, i) :: acc, none)
        | .inr i => pure ((page_nr, i) :: acc, some key)
      | .raw _ => .error .invalidNode

/-- `Cursor::new` (tree/cursor.rs). -/
def cursorNew (root : ℕ) (key : ℕ) (db : TreeDB) : BM Cursor := do
  let r ← cursorDescend db key 64 root []
  pure ⟨r.1, r.2⟩

/-- `Cursor::value` (tree/cursor.rs). -/
def cursorValue (c : Cursor) (db : TreeDB) : BM (Option ℕ) :=
  match c.key with
  | none => do
    let e ← getIdx c.entries 0
    match storeGet db.store e.1 with
    | .leaf _ vs => do
      let v ← getIdx vs e.2
      pure (some v)
    | _ => .error .invalidNode
  | some _ => pure none

/-- `Cursor::page_mut` (tree/cursor.rs): make the page at `level`
writable, splicing a relocated page number into the parent (or the root)
and into the cursor entry. -/
def cursorPageMut : ℕ → ℕ → Cursor → ℕ → TreeDB → BM (ℕ × Cursor × ℕ × TreeDB)
  | 0, _, _, _, _ => .error .fuelExhausted
  | fuel + 1, level, c, root, db => do
    let e ← getIdx c.entries level
    match db.tryPageMut e.1 with
    | some nr => pure (nr, c, root, db)
    | none =>
      if level + 1 < c.entries.length then do
        let pe ← getIdx c.entries (level + 1)
        let index := pe.2
        let r ← cursorPageMut fuel (level + 1) c root db
        let pnr := r.1
        let c2 := r.2.1
        let root2 := r.2.2.1
        let db2 := r.2.2.2
        match storeGet db2.store pnr with
        | .branch ks ch => do
          let child ← getIdx ch index
          let r2 ← db2.lockPageMut child
          let newChild := r2.1
          let db3 := r2.2.setPage pnr (.branch ks (← setIdx ch index newChild))
          let e2 ← getIdx c2.entries level
          let c3 ← cursorSetEntry c2 level (newChild, e2.2)
          pure (newChild, c3, root2, db3)
        | _ => .error .invalidNode
      else do
        let r ← db.lockPageMut root
        let newRoot := r.1
        let db2 := r.2
        let rl := c.entries.length - 1
        let e2 ← getIdx c.entries rl
        let c2 ← cursorSetEntry c rl (newRoot, e2.2)
        pure (newRoot, c2, newRoot, db2)

/-- `Cursor::parent_insert` (tree/cursor.rs): push a separator and a new
right child into the parent of `level`, growing a new root when `level`
is the root level.  In the new-root arm the source writes
`branch.children_mut()[0]` on a freshly allocated branch whose footer
count is 0, i.e. into an empty slice; the embedding preserves that panic
through `setIdx`. -/
def parentInsert : ℕ → ℕ → ℕ → ℕ → Cursor → ℕ → TreeDB →
    BM (Cursor × ℕ × TreeDB)
  | 0, _, _, _, _, _, _ => .error .fuelExhausted
  | fuel + 1, level, key, value, c, root, db => do
    if level = c.entries.length - 1 then do
      let (page_nr, db2) ← allocNode db false
      match storeGet db2.store page_nr with
      | .branch ks ch => do
        let ch2 ← setIdx ch 0 root
        let db3 := db2.setPage page_nr (.branch ks ch2)
        let (ks3, ch3) ← branchInsertRight ks ch2 0 key value
        let db4 := db3.setPage page_nr (.branch ks3 ch3)
        pure (⟨c.entries ++ [(page_nr, 0)], c.key⟩, page_nr, db4)
      | _ => .error .invalidNode
    else do
      let pe ← getIdx c.entries (level + 1)
      let index := pe.2
      let r ← cursorPageMut 64 (level + 1) c root db
      let bnr := r.1
      let c2 := r.2.1
      let root2 := r.2.2.1
      let db2 := r.2.2.2
      match storeGet db2.store bnr with
      | .branch ks ch =>
        if ch.length < BRANCH_ORDER then do
          let (ks2, ch2) ← branchInsertRight ks ch index key value
          pure (c2, root2, db2.setPage bnr (.branch ks2 ch2))
        else do
          let (bnr2, db3) ← allocNode db2 false
          let r3 ← branchSplit ks ch
          let lk := r3.1.1
          let lc := r3.1.2
          let rk := r3.2.1.1
          let rc := r3.2.1.2
          let splitKey := r3.2.2
          let db4 := (db3.setPage bnr (.branch lk lc)).setPage bnr2 (.branch rk rc)
          let len := lc.length
          let r4 ← parentInsert fuel (level + 1) splitKey bnr2 c2 root2 db4
          let c3 := r4.1
          let root3 := r4.2.1
          let db5 := r4.2.2
          if index < len then
            match storeGet db5.store bnr with
            | .branch ks3 ch3 => do
              let (ks4, ch4) ← branchInsertRight ks3 ch3 index key value
              pure (c3, root3, db5.setPage bnr (.branch ks4 ch4))
            | _ => .error .invalidNode
          else
            match storeGet db5.store bnr2 with
            | .branch ks3 ch3 => do
              let index2 := index - len
              let (ks4, ch4) ← branchInsertRight ks3 ch3 index2 key value
              let db6 := db5.setPage bnr2 (.branch ks4 ch4)
              let c4 ← cursorSetEntry c3 (level + 1) (bnr2, index2)
              pure (c4, root3, db6)
            | _ => .error .invalidNode
      | _ => .error .invalidNode

/-- `Cursor::set_value` (tree/cursor.rs). -/
def setValue (c : Cursor) (value : ℕ) (root : ℕ) (db : TreeDB) :
    BM (Bool × Cursor × ℕ × TreeDB) := do
  if c.entries.length = 0 then
    match c.key with
    | some k => do
      let (nr, db2) ← allocNode db true
      let db3 := db2.setPage nr (.leaf [k] [value])
      pure (true, ⟨[(nr, 0)], none⟩, nr, db3)
    | none => pure (false, c, root, db)
  else do
    let r ← cursorPageMut 64 0 c root db
    let leafNr := r.1
    let c2 := r.2.1
    let root2 := r.2.2.1
    let db2 := r.2.2.2
    let e0 ← getIdx c2.entries 0
    let index := e0.2
    match c2.key with
    | some k =>
      match storeGet db2.store leafNr with
      | .leaf ks vs =>
        if ks.length < LEAF_ORDER then do
          let (ks2, vs2) ← leafInsert ks vs index k value
          pure (true, ⟨c2.entries, none⟩, root2, db2.setPage leafNr (.leaf ks2 vs2))
        else do
          let (otherNr, db3) ← allocNode db2 true
          let r2 ← leafSplit ks vs
          let db4 := (db3.setPage leafNr (.leaf r2.1.1 r2.1.2)).setPage
            otherNr (.leaf r2.2.1 r2.2.2)
          let len := r2.1.1.length
          let splitKey ← getIdx r2.2.1 0
          let r3 ← parentInsert 64 0 splitKey otherNr ⟨c2.entries, none⟩ root2 db4
          let c3 := r3.1
          let root3 := r3.2.1
          let db5 := r3.2.2
          if index < len then
            match storeGet db5.store leafNr with
            | .leaf ks3 vs3 => do
              let (ks4, vs4) ← leafInsert ks3 vs3 index k value
              pure (true, c3, root3, db5.setPage leafNr (.leaf ks4 vs4))
            | _ => .error .invalidNode
          else
            match storeGet db5.store otherNr with
            | .leaf ks3 vs3 => do
              let index2 := index - len
              let (ks4, vs4) ← leafInsert ks3 vs3 index2 k value
              let db6 := db5.setPage otherNr (.leaf ks4 vs4)
              let c4 ← cursorSetEntry c3 0 (otherNr, index2)
              pure (true, c4, root3, db6)
            | _ => .error .invalidNode
      | _ => .error .invalidNode
    | none =>
      -- `is_valid`: a nonempty cursor whose leaf index is in bounds
      if c2.entries.length ≠ 0 ∧ index < (storeGet db2.store leafNr).nodeLen then
        match storeGet db2.store leafNr with
        | .leaf ks vs => do
          let vs2 ← setIdx vs index value
          pure (true, c2, root2, db2.setPage leafNr (.leaf ks vs2))
        | _ => .error .invalidNode
      else
        pure (false, c2, root2, db2)

/-- `Cursor::rebalance` (tree/cursor.rs), including the source's borrow
and merge arms exactly as written (the branch-level borrows panic in the
source, the merge-with-left arm deallocates the surviving left sibling,
and the merge-with-right arm deallocates the parent's page number; all of
that is reproduced, not repaired). -/
def rebalance : ℕ → ℕ → Cursor → ℕ → TreeDB → BM (Cursor × ℕ × TreeDB)
  | 0, _, _, _, _ => .error .fuelExhausted
  | fuel + 1, level, c0, root0, db0 => do
    let mut cc := c0
    let mut rr := root0
    let mut dd := db0
    let pe ← getIdx cc.entries (level + 1)
    let index := pe.2
    let r1 ← cursorPageMut 64 (level + 1) cc rr dd
    let bnr := r1.1
    cc := r1.2.1
    rr := r1.2.2.1
    dd := r1.2.2.2
    -- try to borrow from the left sibling
    if index > 0 then
      match storeGet dd.store bnr with
      | .branch pks pch => do
        let childOld ← getIdx pch (index - 1)
        let rc ← dd.lockPageMut childOld
        let childNr := rc.1
        dd := rc.2
        dd := dd.setPage bnr (.branch pks (← setIdx pch (index - 1) childNr))
        if level = 0 then
          match storeGet dd.store childNr with
          | .leaf lks lvs =>
            if lks.length * 2 > LEAF_ORDER then do
              let r3 ← cursorPageMut 64 0 cc rr dd
              let selfNr := r3.1
              cc := r3.2.1
              rr := r3.2.2.1
              dd := r3.2.2.2
              match storeGet dd.store selfNr with
              | .leaf sks svs => do
                let r4 ← leafShiftRight lks lvs sks svs
                dd := (dd.setPage childNr (.leaf r4.1.1 r4.1.2)).setPage
                  selfNr (.leaf r4.2.1.1 r4.2.1.2)
                match storeGet dd.store bnr with
                | .branch pks3 pch3 => do
                  dd := dd.setPage bnr (.branch (← setIdx pks3 (index - 1) r4.2.2) pch3)
                  return (cc, rr, dd)
                | _ => .error .invalidNode
              | _ => .error .invalidNode
            else
              pure ()
          | _ => .error .invalidNode
        else
          match storeGet dd.store childNr with
          | .branch lbk lbc =>
            if lbc.length * 2 > BRANCH_ORDER then do
              let r3 ← cursorPageMut 64 level cc rr dd
              let selfNr := r3.1
              cc := r3.2.1
              rr := r3.2.2.1
              dd := r3.2.2.2
              match storeGet dd.store selfNr with
              | .branch sbk sbc => do
                let r4 ← branchShiftRight dd lbk lbc sbk sbc
                dd := (dd.setPage childNr (.branch r4.1.1 r4.1.2)).setPage
                  selfNr (.branch r4.2.1.1 r4.2.1.2)
                match storeGet dd.store bnr with
                | .branch pks3 pch3 => do
                  dd := dd.setPage bnr (.branch (← setIdx pks3 (index - 1) r4.2.2) pch3)
                  return (cc, rr, dd)
                | _ => .error .invalidNode
              | _ => .error .invalidNode
            else
              pure ()
          | _ => .error .invalidNode
      | _ => .error .invalidNode
    -- try to borrow from the right sibling
    match storeGet dd.store bnr with
    | .branch pks pch => do
      if index + 1 < pch.length then
        do
          let childOld ← getIdx pch (index + 1)
          let rc ← dd.lockPageMut childOld
          let childNr := rc.1
          dd := rc.2
          dd := dd.setPage bnr (.branch pks (← setIdx pch (index + 1) childNr))
          if level = 0 then
            match storeGet dd.store childNr with
            | .leaf rks rvs =>
              if rks.length * 2 > LEAF_ORDER then do
                let r3 ← cursorPageMut 64 0 cc rr dd
                let selfNr := r3.1
                cc := r3.2.1
                rr := r3.2.2.1
                dd := r3.2.2.2
                match storeGet dd.store selfNr with
                | .leaf sks svs => do
                  let r4 ← leafShiftLeft sks svs rks rvs
                  dd := (dd.setPage selfNr (.leaf r4.1.1 r4.1.2)).setPage
                    childNr (.leaf r4.2.1.1 r4.2.1.2)
                  match storeGet dd.store bnr with
                  | .branch pks3 pch3 => do
                    dd := dd.setPage bnr (.branch (← setIdx pks3 index r4.2.2) pch3)
                    return (cc, rr, dd)
                  | _ => .error .invalidNode
                | _ => .error .invalidNode
              else
                pure ()
            | _ => .error .invalidNode
          else
            match storeGet dd.store childNr with
            | .branch rbk rbc =>
              if rbc.length * 2 > BRANCH_ORDER then do
                let r3 ← cursorPageMut 64 level cc rr dd
                let selfNr := r3.1
                cc := r3.2.1
                rr := r3.2.2.1
                dd := r3.2.2.2
                match storeGet dd.store selfNr with
                | .branch sbk sbc => do
                  let r4 ← branchShiftLeft dd sbk sbc rbk rbc
                  dd := (dd.setPage selfNr (.branch r4.1.1 r4.1.2)).setPage
                    childNr (.branch r4.2.1.1 r4.2.1.2)
                  match storeGet dd.store bnr with
                  | .branch pks3 pch3 => do
                    dd := dd.setPage bnr (.branch (← setIdx pks3 index r4.2.2) pch3)
                    return (cc, rr, dd)
                  | _ => .error .invalidNode
                | _ => .error .invalidNode
              else
                pure ()
            | _ => .error .invalidNode
      else
        pure ()
    | _ => .error .invalidNode
    -- merge
    if index > 0 then
      match storeGet dd.store bnr with
      | .branch pks pch => do
        let childOld ← getIdx pch (index - 1)
        let rc ← dd.lockPageMut childOld
        let childNr := rc.1
        dd := rc.2
        dd := dd.setPage bnr (.branch pks (← setIdx pch (index - 1) childNr))
        if level = 0 then
          match storeGet dd.store childNr with
          | .leaf lks lvs => do
            let r3 ← cursorPageMut 64 0 cc rr dd
            let selfNr := r3.1
            cc := r3.2.1
            rr := r3.2.2.1
            dd := r3.2.2.2
            match storeGet dd.store selfNr with
            | .leaf sks svs => do
              let m := leafMerge lks lvs sks svs
              dd := dd.setPage childNr (.leaf m.1 m.2)
              match storeGet dd.store bnr with
              | .branch pks3 pch3 => do
                let d2 ← branchDeleteLeft pks3 pch3 index
                dd := dd.setPage bnr (.branch d2.1 d2.2)
                let pe2 ← getIdx cc.entries (level + 1)
                cc ← cursorSetEntry cc (level + 1) (pe2.1, pe2.2 - 1)
                dd ← dd.lockDeallocate childNr
              | _ => .error .invalidNode
            | _ => .error .invalidNode
          | _ => .error .invalidNode
        else
          match storeGet dd.store childNr with
          | .branch lbk lbc => do
            let r3 ← cursorPageMut 64 level cc rr dd
            let selfNr := r3.1
            cc := r3.2.1
            rr := r3.2.2.1
            dd := r3.2.2.2
            match storeGet dd.store selfNr with
            | .branch sbk sbc => do
              let m ← branchMerge dd lbk lbc sbk sbc
              dd := dd.setPage childNr (.branch m.1 m.2)
              match storeGet dd.store bnr with
              | .branch pks3 pch3 => do
                let d2 ← branchDeleteLeft pks3 pch3 index
                dd := dd.setPage bnr (.branch d2.1 d2.2)
                let pe2 ← getIdx cc.entries (level + 1)
                cc ← cursorSetEntry cc (level + 1) (pe2.1, pe2.2 - 1)
                dd ← dd.lockDeallocate childNr
              | _ => .error .invalidNode
            | _ => .error .invalidNode
          | _ => .error .invalidNode
      | _ => .error .invalidNode
    else
      match storeGet dd.store bnr with
      | .branch pks pch => do
        let childOld ← getIdx pch (index + 1)
        let rc ← dd.lockPageMut childOld
        let childNr := rc.1
        dd := rc.2
        dd := dd.setPage bnr (.branch pks (← setIdx pch (index + 1) childNr))
        if level = 0 then
          match storeGet dd.store childNr with
          | .leaf rks rvs => do
            let r3 ← cursorPageMut 64 0 cc rr dd
            let selfNr := r3.1
            cc := r3.2.1
            rr := r3.2.2.1
            dd := r3.2.2.2
            match storeGet dd.store selfNr with
            | .leaf sks svs => do
              let m := leafMerge sks svs rks rvs
              dd := dd.setPage selfNr (.leaf m.1 m.2)
            | _ => .error .invalidNode
          | _ => .error .invalidNode
        else
          match storeGet dd.store childNr with
          | .branch rbk rbc => do
            let r3 ← cursorPageMut 64 level cc rr dd
            let selfNr := r3.1
            cc := r3.2.1
            rr := r3.2.2.1
            dd := r3.2.2.2
            match storeGet dd.store selfNr with
            | .branch sbk sbc => do
              let m ← branchMerge dd sbk sbc rbk rbc
              dd := dd.setPage selfNr (.branch m.1 m.2)
            | _ => .error .invalidNode
          | _ => .error .invalidNode
        match storeGet dd.store bnr with
        | .branch pks3 pch3 => do
          let d2 ← branchDeleteRight pks3 pch3 index
          dd := dd.setPage bnr (.branch d2.1 d2.2)
          let pe2 ← getIdx cc.entries (level + 1)
          dd ← dd.lockDeallocate pe2.1
        | _ => .error .invalidNode
      | _ => .error .invalidNode
    -- collapse a single-child root or keep rebalancing upward
    match storeGet dd.store bnr with
    | .branch _ pch4 =>
      if level + 1 = cc.entries.length - 1 ∧ pch4.length = 1 then do
        rr ← getIdx pch4 0
        cc := ⟨cc.entries.dropLast, cc.key⟩
        pure (cc, rr, dd)
      else if pch4.length * 2 < BRANCH_ORDER then
        rebalance fuel (level + 1) cc rr dd
      else
        pure (cc, rr, dd)
    | _ => .error .invalidNode

/-- `Cursor::delete` (tree/cursor.rs). -/
def cursorDelete (c : Cursor) (root : ℕ) (db : TreeDB) :
    BM (Bool × ℕ × TreeDB) := do
  if c.entries.length = 0 then
    pure (false, root, db)
  else
    match c.key with
    | none => do
      let e0 ← getIdx c.entries 0
      let index := e0.2
      let height := c.entries.length
      let r ← cursorPageMut 64 0 c root db
      let leafNr := r.1
      let c2 := r.2.1
      let root2 := r.2.2.1
      let db2 := r.2.2.2
      match storeGet db2.store leafNr with
      | .leaf ks vs => do
        let (ks2, vs2) ← leafDelete ks vs index
        let db3 := db2.setPage leafNr (.leaf ks2 vs2)
        if height > 1 ∧ ks2.length * 2 < LEAF_ORDER then do
          let r2 ← rebalance 64 0 c2 root2 db3
          pure (true, r2.2.1, r2.2.2)
        else if height = 1 ∧ ks2.length = 0 then do
          let db4 ← db3.lockDeallocate root2
          pure (true, NULL_PAGE_NR, db4)
        else
          pure (true, root2, db3)
      | _ => .error .invalidNode
    | some _ => pure (false, root, db)

/-! ### The tree operations and the evaluated runs -/

/-- A fresh database: empty zero-filled store, nothing writable, default
allocator state (`last_page = 1`, empty free lists). -/
def TreeDB.fresh : TreeDB :=
  ⟨[], fun _ => false, ⟨⟨0, 0, 0⟩, ⟨0, 0, 0⟩, 1⟩⟩

/-- `TreeGuard::insert` (tree/mod.rs): build a cursor, read the old
value, set the new one; returns the new root and database. -/
def treeInsert (root : ℕ) (db : TreeDB) (k v : ℕ) : BM (ℕ × TreeDB) := do
  let c ← cursorNew root k db
  let _old ← cursorValue c db
  let r ← setValue c v root db
  pure (r.2.2.1, r.2.2.2)

/-- `TreeGuard::get` (tree/mod.rs). -/
def treeGet (root : ℕ) (db : TreeDB) (k : ℕ) : BM (Option ℕ) := do
  let c ← cursorNew root k db
  cursorValue c db

/-- `TreeGuard::remove` (tree/mod.rs). -/
def treeRemove (root : ℕ) (db : TreeDB) (k : ℕ) :
    BM (Option ℕ × ℕ × TreeDB) := do
  let c ← cursorNew root k db
  let old ← cursorValue c db
  let r ← cursorDelete c root db
  pure (old, r.2.1, r.2.2)

/-- Insert `(k, k)` for `k = 0, …, n−1` into an initially empty
`Tree<u64, u64>` on a fresh database. -/
def insertSeq (n : ℕ) : BM (ℕ × TreeDB) :=
  (List.range n).foldlM (fun st k => treeInsert st.1 st.2 k k)
    (NULL_PAGE_NR, TreeDB.fresh)

/-- The claim's reference semantics for the oracle map, written from the
claim's words (get returns the most recently inserted, not since removed,
value). -/
def oracleInsert (m : List (ℕ × ℕ)) (k v : ℕ) : List (ℕ × ℕ) :=
  (k, v) :: m.filter (fun p => p.1 != k)

def oracleGet (m : List (ℕ × ℕ)) (k : ℕ) : Option ℕ :=
  (m.find? (fun p => p.1 == k)).map (fun p => p.2)

def oracleSeq (n : ℕ) : List (ℕ × ℕ) :=
  (List.range n).foldl (fun m k => oracleInsert m k k) []

/-! ## Theorems -/

/-- Claim C4 (failing input): an NPC at `(x, z) = (1.5, 1.5)`, `y = 3`,
over `heightsCex`, with `gravity_y = −20` and tick period `0.05 s`.  The
four clamped corners are `(1,1), (2,1), (1,2), (2,2)` and their bilinear
interpolation is 2, so per the claim the fallen `y = 2` is at or below
`ground + 1 = 3` and the NPC snaps to 3, grounded.  The code reads the
corner `(1,2)` twice in place of `(2,2)`, computes ground 0, and leaves
the NPC airborne at `y = 2`.  All values are dyadic and exactly
representable in `f32`, so rounding plays no role. -/
theorem update_npcs_bilinear_divergence :
    updateAirborneNpcY heightsCex 4 (3 / 2) 3 (3 / 2) (-20) (1 / 20) =
      (2, false) ∧
    updateAirborneNpcYClaimed heightsCex 4 (3 / 2) 3 (3 / 2) (-20) (1 / 20) =
      (3, true) ∧
    updateAirborneNpcY heightsCex 4 (3 / 2) 3 (3 / 2) (-20) (1 / 20) ≠
      updateAirborneNpcYClaimed heightsCex 4 (3 / 2) 3 (3 / 2) (-20) (1 / 20) := by
  have h1 : updateAirborneNpcY heightsCex 4 (3 / 2) 3 (3 / 2) (-20) (1 / 20) =
      (2, false) := by
    norm_num [updateAirborneNpcY, heightsCex, ratAsUsize, interpolate]
  have h2 : updateAirborneNpcYClaimed heightsCex 4 (3 / 2) 3 (3 / 2) (-20) (1 / 20) =
      (3, true) := by
    norm_num [updateAirborneNpcYClaimed, heightsCex, ratAsUsize, interpolate]
  refine ⟨h1, h2, ?_⟩
  rw [h1, h2]
  intro hcontra
  exact absurd (congrArg Prod.snd hcontra) (by decide)

/-- The gap-filling loop of `insert` leaves the `last` field unchanged and,
once it has passed tick `x` itself, slot `x % N` holds exactly `y`. -/
theorem insertLoop_writes_final {N : ℕ} (lastY y : ℚ) (lastTick x : ℕ)
    (hlt : lastTick < x) :
    ∀ (fuel i : ℕ) (b : InterpolationBuffer N), x + 1 - i ≤ fuel →
      b.last = lastTick → i ≤ x →
      (InterpolationBuffer.insertLoop lastY y lastTick x i b).data (x % N) = y ∧
      (InterpolationBuffer.insertLoop lastY y lastTick x i b).last = lastTick := by
  intro fuel
  induction fuel with
  | zero =>
    intro i b hf hlast hle
    omega
  | succ f ih =>
    intro i b hf hlast hle
    rw [InterpolationBuffer.insertLoop, dif_pos hle]
    by_cases hix : i = x
    · subst hix
      rw [InterpolationBuffer.insertLoop, dif_neg (by omega)]
      have hguard : b.last - (N - 1) ≤ i := by omega
      have hdiv : (((i - lastTick : ℕ) : ℚ) / ((i - lastTick : ℕ) : ℚ)) = 1 := by
        have hpos : (0 : ℚ) < ((i - lastTick : ℕ) : ℚ) := by
          have h1 : 0 < i - lastTick := by omega
          exact_mod_cast h1
        exact div_self (ne_of_gt hpos)
      rw [InterpolationBuffer.insert_old, if_pos hguard]
      constructor
      · show (if i % N = i % N then
          interpolate lastY y (((i - lastTick : ℕ) : ℚ) / ((i - lastTick : ℕ) : ℚ))
          else b.data (i % N)) = y
        rw [if_pos rfl, hdiv, interpolate]
        ring
      · exact hlast
    · have hlt2 : i < x := by omega
      refine ih (i + 1) _ (by omega) ?_ (by omega)
      rw [InterpolationBuffer.insert_old]
      split_ifs with hg
      · exact hlast
      · exact hlast

/-- Claim C8: `get(t)` returns the newest sample when `⌊t⌋ ≥ last`, the
oldest retained sample (the one at tick `last − (N−1)`) when
`⌊t⌋ < last − (N−1)`, and otherwise the linear interpolation between the
samples at ticks `⌊t⌋` and `⌊t⌋+1` with weight `t − ⌊t⌋`; and after a
forward `insert(x, y)` the buffer's newest tick is `x` and `get` at it
returns the inserted sample `y`. -/
theorem interpolation_get_spec {N : ℕ} (b : InterpolationBuffer N) (t : ℚ)
    (x : ℕ) (y : ℚ) (hN : 0 < N) (ht : 0 ≤ t) (hx : b.last ≤ x) :
    (b.last ≤ (⌊t⌋).toNat → b.get t = b.lastSample) ∧
    ((⌊t⌋).toNat < b.last - (N - 1) →
      b.get t = b.data ((b.last - (N - 1)) % N)) ∧
    (b.last - (N - 1) ≤ (⌊t⌋).toNat → (⌊t⌋).toNat < b.last →
      b.get t = interpolate (b.data ((⌊t⌋).toNat % N))
        (b.data (((⌊t⌋).toNat + 1) % N)) (t - (⌊t⌋ : ℚ))) ∧
    ((b.insert x y).last = x ∧ (b.insert x y).get (x : ℚ) = y) := by
  have hrat : ratAsUsize t = (⌊t⌋).toNat := rfl
  refine ⟨?_, ?_, ?_, ?_, ?_⟩
  · intro hge
    rw [InterpolationBuffer.get, if_pos (by rw [hrat]; exact hge)]
    rfl
  · intro hlt
    have hnotge : ¬ b.last ≤ ratAsUsize t := by rw [hrat]; omega
    have hnotmid : ¬ b.last - (N - 1) ≤ ratAsUsize t := by rw [hrat]; omega
    rw [InterpolationBuffer.get, if_neg hnotge, if_neg hnotmid]
    have hge : N ≤ b.last := by omega
    have hsplit : b.last + 1 = (b.last - (N - 1)) + N := by omega
    rw [hsplit, Nat.add_mod_right]
  · intro hmid hlt
    have hnotge : ¬ b.last ≤ ratAsUsize t := by rw [hrat]; omega
    rw [InterpolationBuffer.get, if_neg hnotge,
      if_pos (by rw [hrat]; exact hmid), hrat]
    have hcast : (((⌊t⌋).toNat : ℚ)) = ((⌊t⌋ : ℤ) : ℚ) := by
      have h0 : (0 : ℤ) ≤ ⌊t⌋ := Int.floor_nonneg.mpr ht
      exact_mod_cast congrArg (fun n : ℤ => (n : ℚ)) (Int.toNat_of_nonneg h0)
    rw [hcast]
  · rw [InterpolationBuffer.insert]
    split_ifs with hlt
    · rfl
    · rfl
  · rw [InterpolationBuffer.insert]
    split_ifs with hlt
    · have hloop := insertLoop_writes_final (N := N) (b.data (b.last % N)) y
        b.last x hlt (x + 1) (b.last + 1) b (by omega) rfl (by omega)
      rw [InterpolationBuffer.get]
      have hix : ratAsUsize (x : ℚ) = x := by
        rw [ratAsUsize, Int.floor_natCast, Int.toNat_natCast]
      rw [if_pos (by rw [hix])]
      show (InterpolationBuffer.insertLoop (b.data (b.last % N)) y b.last x
        (b.last + 1) b).data (x % N) = y
      exact hloop.1
    · have hxeq : x = b.last := by omega
      rw [InterpolationBuffer.get]
      have hix : ratAsUsize (x : ℚ) = x := by
        rw [ratAsUsize, Int.floor_natCast, Int.toNat_natCast]
      rw [if_pos (by rw [hix])]
      show (b.insert_old x y).data (x % N) = y
      rw [InterpolationBuffer.insert_old, if_pos (by omega)]
      show (if x % N = x % N then y else b.data (x % N)) = y
      rw [if_pos rfl]

/-- Witness for `interpolation_get_spec` at `N = 4`, a constant buffer
with newest tick 5, query `t = 13/2`, and a forward insert at tick 6. -/
theorem interpolation_get_spec_witness :
    (0 : ℕ) < 4 ∧ (0 : ℚ) ≤ 13 / 2 ∧
      (InterpolationBuffer.init 4 0 5).last ≤ 6 ∧
    (((InterpolationBuffer.init 4 0 5).insert 6 9).last = 6 ∧
      ((InterpolationBuffer.init 4 0 5).insert 6 9).get ((6 : ℕ) : ℚ) = 9) :=
  ⟨by decide, by norm_num, by decide,
    (interpolation_get_spec (InterpolationBuffer.init 4 0 5) (13 / 2) 6 9
      (by decide) (by norm_num) (by decide)).2.2.2⟩

/-- Slots returned by `Header::valid_snapshot` are the stored slot and
satisfy the parity and checksum conditions. -/
theorem header_valid_snapshot_inv {F C : Type} [DecidableEq C]
    (h : Header F C) (H : DbState → C) (i : Fin 2) (s : Snapshot C)
    (hsome : h.valid_snapshot H i = some s) :
    s = h.snapshots i ∧ s.state.version % 2 = i.val ∧
      H s.state = s.checksum := by
  unfold Header.valid_snapshot at hsome
  split_ifs at hsome with hc
  · cases hsome
    refine ⟨rfl, ?_, ?_⟩
    · have := hc.1
      have hlt : i.val < 2 := i.isLt
      omega
    · exact of_decide_eq_true hc.2

/-- Claim C1: a snapshot slot `i` is valid iff its stored version has
parity `i` and the checksum of its state equals the stored checksum;
`Header::validate` errors on a format mismatch, errors when neither slot
is valid, and otherwise returns the state of the valid slot with the
greatest version. -/
theorem header_validate_spec {F C : Type} [DecidableEq F] [DecidableEq C]
    (h : Header F C) (fmt : F) (H : DbState → C) :
    (∀ i : Fin 2, h.valid_snapshot H i = some (h.snapshots i) ↔
      ((h.snapshots i).state.version % 2 = i.val ∧
        H (h.snapshots i).state = (h.snapshots i).checksum)) ∧
    (h.format ≠ fmt → h.validate fmt H = .error .formatMismatch) ∧
    (h.format = fmt → h.valid_snapshot H 0 = none →
      h.valid_snapshot H 1 = none → h.validate fmt H = .error .corrupted) ∧
    (∀ (i : Fin 2) (s : Snapshot C), h.format = fmt →
      h.valid_snapshot H i = some s →
      (∀ (j : Fin 2) (s' : Snapshot C), h.valid_snapshot H j = some s' →
        s'.state.version ≤ s.state.version) →
      h.validate fmt H = .ok s.state) := by
  refine ⟨?_, ?_, ?_, ?_⟩
  · intro i
    constructor
    · intro hsome
      have := header_valid_snapshot_inv h H i _ hsome
      exact ⟨this.2.1, this.2.2⟩
    · intro ⟨h1, h2⟩
      unfold Header.valid_snapshot
      rw [if_pos]
      constructor
      · have hlt : i.val < 2 := i.isLt
        omega
      · exact decide_eq_true h2
  · intro hne
    unfold Header.validate
    rw [if_pos hne]
  · intro he h0 h1
    unfold Header.validate
    rw [if_neg (by simp [he])]
    unfold Header.last_snapshot
    rw [h0, h1]
    rfl
  · intro i s he hsi hmax
    unfold Header.validate
    rw [if_neg (by simp [he])]
    unfold Header.last_snapshot
    rcases i with ⟨iv, hlt⟩
    interval_cases iv
    · have hsi0 : h.valid_snapshot H 0 = some s := hsi
      have hinv : s.state.version % 2 = 0 :=
        (header_valid_snapshot_inv h H 0 s hsi0).2.1
      rcases h1 : h.valid_snapshot H 1 with _ | s1
      · rw [hsi0]
        rfl
      · have hodd : s1.state.version % 2 = 1 :=
          (header_valid_snapshot_inv h H 1 s1 h1).2.1
        have hle := hmax 1 s1 h1
        have hlt1 : s1.state.version < s.state.version := by omega
        rw [hsi0]
        have hneg : ¬ (optionVersionLe
            (Option.map (fun s => s.state.version) (some s))
            (Option.map (fun s => s.state.version) (some s1)) = true) := by
          show ¬ (decide (s.state.version ≤ s1.state.version) = true)
          simp only [decide_eq_true_eq]
          omega
        rw [if_neg hneg]
    · have hsi1 : h.valid_snapshot H 1 = some s := hsi
      rcases h0 : h.valid_snapshot H 0 with _ | s0
      · rw [hsi1]
        rfl
      · have hle := hmax 0 s0 h0
        rw [hsi1]
        have hpos : optionVersionLe
            (Option.map (fun s => s.state.version) (some s0))
            (Option.map (fun s => s.state.version) (some s)) = true := by
          show decide (s0.state.version ≤ s.state.version) = true
          exact decide_eq_true (by omega)
        rw [if_pos hpos]

/-- Witness for `header_validate_spec`: the concrete header whose slot 1
is the only valid slot validates to slot 1's state. -/
theorem header_validate_spec_witness :
    headerWitnessInput.format = 7 ∧
    headerWitnessInput.valid_snapshot (fun st => st.version) 1 =
      some (headerWitnessInput.snapshots 1) ∧
    headerWitnessInput.validate 7 (fun st => st.version) =
      .ok (headerWitnessInput.snapshots 1).state := by
  refine ⟨rfl, rfl, ?_⟩
  refine (header_validate_spec headerWitnessInput 7 (fun st => st.version)).2.2.2
    1 (headerWitnessInput.snapshots 1) rfl rfl ?_
  intro j s' hj
  rcases j with ⟨jv, hjlt⟩
  interval_cases jv
  · have hj0 : headerWitnessInput.valid_snapshot (fun st => st.version) 0 = some s' := hj
    have h0 : headerWitnessInput.valid_snapshot (fun st => st.version) 0 = none := rfl
    rw [h0] at hj0
    cases hj0
  · have hj1 : headerWitnessInput.valid_snapshot (fun st => st.version) 1 = some s' := hj
    have h1 : headerWitnessInput.valid_snapshot (fun st => st.version) 1 =
      some (headerWitnessInput.snapshots 1) := rfl
    rw [h1] at hj1
    cases hj1
    exact Nat.le_refl _

/-- Claim C5: `Allocator::allocate` returns, in order of preference, the
most recently pushed entry of the transaction-local `append` list, else the
back entry of the current free list, else the back entry of the previous
free list, else `last_page + 1` after incrementing `last_page`; and in
every case the returned page number is marked writable in the bitset. -/
theorem allocator_allocate_preference_order (a : Allocator) (pager : Pager) :
    (a.allocate pager).1 = a.allocateClaimed pager ∧
    (a.allocate pager).2.2.writable (a.allocate pager).1 = true ∧
    (a.allocate pager).2.1.state.last_page =
      (if a.append = [] ∧ ¬ a.state.current_free.front < a.state.current_free.back ∧
          ¬ a.state.previous_free.front < a.state.previous_free.back
       then (a.state.last_page + 1) % U32 else a.state.last_page) := by
  rcases a with ⟨⟨prev, cur, lastp⟩, app, pre⟩
  cases app with
  | cons nr rest =>
    simp [Allocator.allocate, Allocator.allocateClaimed, Pager.enable_write]
  | nil =>
    by_cases h1 : cur.front < cur.back
    · simp [Allocator.allocate, Allocator.allocateClaimed, FreeList.pop_back,
        h1, Pager.enable_write]
    · by_cases h2 : prev.front < prev.back
      · simp [Allocator.allocate, Allocator.allocateClaimed, FreeList.pop_back,
          h1, h2, Pager.enable_write]
      · simp [Allocator.allocate, Allocator.allocateClaimed, FreeList.pop_back,
          h1, h2, Pager.enable_write]

/-- Claim C6: `FreeList::shift_front` with `front ≥ back` returns `None`
and increments both `front` and `back`; with `front < back` it returns
`Some` entry and increments only `front`; consequently `back − front` is
unchanged by a failed shift and decreases by exactly one on a successful
one. -/
theorem free_list_shift_front_spec (fl : FreeList) (pager : Pager)
    (hfb : fl.front ≤ fl.back) (hb : fl.back < U32) :
    (fl.back ≤ fl.front →
      fl.shift_front pager =
        (none, ⟨fl.root, (fl.front + 1) % U32, (fl.back + 1) % U32⟩)) ∧
    (fl.front < fl.back →
      fl.shift_front pager =
        (some (fl.get fl.front pager), ⟨fl.root, (fl.front + 1) % U32, fl.back⟩)) ∧
    (fl.shift_front pager).2.back - (fl.shift_front pager).2.front =
      (if fl.front < fl.back then fl.back - fl.front - 1 else fl.back - fl.front) := by
  by_cases h : fl.front < fl.back
  · refine ⟨fun hle => absurd h (by omega), fun _ => ?_, ?_⟩
    · simp [FreeList.shift_front, h]
    · have hlt : fl.front + 1 < U32 := by omega
      simp [FreeList.shift_front, h, Nat.mod_eq_of_lt hlt]
      omega
  · refine ⟨fun _ => by simp [FreeList.shift_front, h], fun hlt => absurd hlt h, ?_⟩
    have heq : fl.front = fl.back := by omega
    simp [FreeList.shift_front, h, heq]

/-- Scaling a ceiling division: `⌈a/b⌉ = ⌈ac/(bc)⌉` in the
`(x + d - 1) / d` encoding. -/
theorem ceil_div_scale (a b c : ℕ) (hb : 0 < b) (hc : 0 < c) :
    (a * c + b * c - 1) / (b * c) = (a + b - 1) / b := by
  obtain ⟨b, rfl⟩ : ∃ b', b = b' + 1 := ⟨b - 1, by omega⟩
  obtain ⟨c, rfl⟩ : ∃ c', c = c' + 1 := ⟨c - 1, by omega⟩
  have hnum : a * (c + 1) + (b + 1) * (c + 1) - 1 = (c + 1) * (a + b) + c := by
    have h1 : a * (c + 1) + (b + 1) * (c + 1) = (c + 1) * (a + b) + (c + 1) := by
      ring
    omega
  have hden : (b + 1) * (c + 1) = (c + 1) * (b + 1) := by ring
  rw [hnum, hden, ← Nat.div_div_eq_div_mul,
    Nat.mul_add_div (by omega : 0 < c + 1),
    Nat.div_eq_of_lt (by omega : c < c + 1), Nat.add_zero]
  have hab : a + (b + 1) - 1 = a + b := by omega
  rw [hab]

/-- Claim C7 (counterexample): for element size 3 and length 5461 the
extent has `pages = 3` backing pages, while the claimed formula
`ceil(len * sizeof(T) / 8192)` gives 2. -/
theorem vec_pages_ceil_counterexample :
    VecHeader.pages ⟨0, 5461⟩ 3 = 3 ∧
    (5461 * 3 + PAGE_SIZE - 1) / PAGE_SIZE = 2 ∧
    VecHeader.pages ⟨0, 5461⟩ 3 ≠ (5461 * 3 + PAGE_SIZE - 1) / PAGE_SIZE := by
  refine ⟨?_, ?_, ?_⟩ <;> decide

/-- Claim C7 (amended): the number of backing pages is
`ceil(len / (8192 / sizeof(T)))` with truncating inner division; whenever
`sizeof(T)` divides the page size 8192 this equals the claimed
`ceil(len * sizeof(T) / 8192)`. -/
theorem vec_pages_ceil_div (tSize : ℕ) (h : VecHeader)
    (h0 : 0 < tSize) (hdvd : tSize ∣ PAGE_SIZE) :
    VecHeader.pages h tSize = (h.len * tSize + PAGE_SIZE - 1) / PAGE_SIZE := by
  obtain ⟨e, he⟩ := hdvd
  have he0 : 0 < e := by
    by_contra h'
    have he' : e = 0 := by omega
    rw [he', Nat.mul_zero] at he
    exact absurd he (by decide)
  have hepp : elements_per_page tSize = e := by
    rw [elements_per_page, he, Nat.mul_div_cancel_left e h0]
  rw [VecHeader.pages, hepp, he, Nat.mul_comm tSize e]
  exact (ceil_div_scale h.len e tSize he0 h0).symm

/-- Witness for `vec_pages_ceil_div` at element size 8 and length 3. -/
theorem vec_pages_ceil_div_witness :
    (0 : ℕ) < 8 ∧ (8 : ℕ) ∣ PAGE_SIZE ∧
    VecHeader.pages ⟨0, 3⟩ 8 = (3 * 8 + PAGE_SIZE - 1) / PAGE_SIZE :=
  ⟨by decide, by decide, vec_pages_ceil_div 8 ⟨0, 3⟩ (by decide) (by decide)⟩

/-- Claim C3 (counterexample): a `SetupDynamic` entry compares `Less`
against a `TeardownStatic` entry — the claimed strict setup-before-teardown
pop order would require `Greater` — and `Less` also holds in the reverse
direction. -/
theorem region_entry_cmp_counterexample :
    Entry.cmp ⟨⟨0, 0⟩, 0, 0, .setupDynamic⟩ ⟨⟨0, 0⟩, 0, 0, .teardownStatic⟩ = .lt ∧
    Entry.cmp ⟨⟨0, 0⟩, 0, 0, .teardownStatic⟩ ⟨⟨0, 0⟩, 0, 0, .setupDynamic⟩ = .lt :=
  ⟨rfl, rfl⟩

/-- Claim C3 (amended): `Entry::cmp` realizes the 4-tier priority order
with two deviations — the pair (SetupDynamic, TeardownStatic) compares
`Less` in both directions, and the two teardown tiers order by descending
distance (the setup tiers order by ascending distance as claimed); ties
break by region position then observer id. -/
theorem region_entry_cmp_characterization (a b : Entry) :
    Entry.cmp a b = Entry.cmpAmended a b := by
  rcases a with ⟨pa, da, ua, ca⟩
  rcases b with ⟨pb, db, ub, cb⟩
  cases ca <;> cases cb <;>
    simp [Entry.cmp, Entry.cmpAmended, ObserverChange.tier, Entry.tieBreak]

/-- Claim C9: for every `SetupDynamic` entry `a` and `TeardownStatic`
entry `b`, both `cmp a b` and `cmp b a` are `Less`; hence the comparator
is not antisymmetric (it violates `cmp a b = Less → cmp b a = Greater`
and `cmp a b = (cmp b a).swap`) and does not define a total order. -/
theorem region_entry_cmp_not_antisymmetric :
    (∀ (p1 p2 : RegionPos) (d1 d2 u1 u2 : ℕ),
      Entry.cmp ⟨p1, d1, u1, .setupDynamic⟩ ⟨p2, d2, u2, .teardownStatic⟩ = .lt ∧
      Entry.cmp ⟨p2, d2, u2, .teardownStatic⟩ ⟨p1, d1, u1, .setupDynamic⟩ = .lt) ∧
    ¬ (∀ a b : Entry, Entry.cmp a b = .lt → Entry.cmp b a = .gt) ∧
    ¬ (∀ a b : Entry, Entry.cmp a b = (Entry.cmp b a).swap) := by
  refine ⟨fun p1 p2 d1 d2 u1 u2 => ⟨rfl, rfl⟩, fun h => ?_, fun h => ?_⟩
  · have h2 := h ⟨⟨0, 0⟩, 0, 0, .setupDynamic⟩ ⟨⟨0, 0⟩, 0, 0, .teardownStatic⟩ rfl
    exact absurd h2 (by decide)
  · have h2 := h ⟨⟨0, 0⟩, 0, 0, .setupDynamic⟩ ⟨⟨0, 0⟩, 0, 0, .teardownStatic⟩
    exact absurd h2 (by decide)

/-- Claim C10: `PageLevel::from_pages` maps 0 to no level, 1 to level 0,
2–2048 to level 1, 2049–4194304 to level 2, and panics beyond 4194304
pages; hence any extent reallocation (`File::set_len` past 2^35 bytes, or
a vector resize past 4194304 pages) panics instead of returning an
error. -/
theorem page_level_from_pages_spec (n cur size : ℕ) :
    PageLevel.from_pages 0 = .ok none ∧
    PageLevel.from_pages 1 = .ok (some .L0) ∧
    (2 ≤ n → n ≤ 2048 → PageLevel.from_pages n = .ok (some .L1)) ∧
    (2049 ≤ n → n ≤ 4194304 → PageLevel.from_pages n = .ok (some .L2)) ∧
    (4194304 < n → PageLevel.from_pages n = .error ()) ∧
    (4194304 < n → reallocateLevels cur n = .error ()) ∧
    (34359738368 < size →
      reallocateLevels cur (FileHeader.pages ⟨0, size⟩) = .error ()) := by
  have herr : ∀ m, 4194304 < m → PageLevel.from_pages m = .error () := by
    intro m hm
    rw [PageLevel.from_pages]
    rw [if_neg (by omega), if_neg (by omega), if_neg (by omega), if_neg (by omega)]
  have hlift : ∀ m, 4194304 < m → reallocateLevels cur m = .error () := by
    intro m hm
    unfold reallocateLevels
    rcases hcur : PageLevel.from_pages cur with e | v
    · cases e
      rfl
    · rw [herr m hm]
      rfl
  refine ⟨rfl, rfl, ?_, ?_, herr n, hlift n, ?_⟩
  · intro h1 h2
    rw [PageLevel.from_pages, if_neg (by omega), if_neg (by omega), if_pos h2]
  · intro h1 h2
    rw [PageLevel.from_pages, if_neg (by omega), if_neg (by omega),
      if_neg (by omega), if_pos h2]
  · intro hsize
    refine hlift _ ?_
    rw [FileHeader.pages]
    show 4194304 < (size + PAGE_SIZE - 1) / PAGE_SIZE
    rw [PAGE_SIZE]
    omega

/-- Witness for `page_level_from_pages_spec` across its guarded clauses. -/
theorem page_level_from_pages_spec_witness :
    PageLevel.from_pages 2048 = .ok (some .L1) ∧
    PageLevel.from_pages 2049 = .ok (some .L2) ∧
    PageLevel.from_pages 4194305 = .error () ∧
    reallocateLevels 1 4194305 = .error () ∧
    reallocateLevels 1 (FileHeader.pages ⟨0, 34359738369⟩) = .error () :=
  ⟨(page_level_from_pages_spec 2048 1 0).2.2.1 (by decide) (by decide),
   (page_level_from_pages_spec 2049 1 0).2.2.2.1 (by decide) (by decide),
   (page_level_from_pages_spec 4194305 1 0).2.2.2.2.1 (by decide),
   (page_level_from_pages_spec 4194305 1 0).2.2.2.2.2.1 (by decide),
   (page_level_from_pages_spec 0 1 34359738369).2.2.2.2.2.2 (by decide)⟩

/-- Claim C2 (failing input): on a fresh database, inserting keys
`0, …, 4` (values = keys) fills the root leaf of a
`Tree<[u8; 1024], [u8; 614]>` (leaf order 5) and behaves per the oracle,
including a removal; the 6th insert `(5, 5)` splits the root leaf,
`parent_insert` allocates a fresh branch whose footer count is 0 and
writes `children_mut()[0]` into that empty slice, and the insert panics
with index-out-of-bounds, where the claim's oracle has `get 5 = some 5`.
The same path is taken at the first root-leaf split of every
instantiation, e.g. at 512 inserts for `Tree<u64, u64>` whose leaf order
is `leafOrderOf 8 8 8 = 511`. -/
theorem tree_insert_split_panics :
    (do
      let st ← insertSeq 5
      let g0 ← treeGet st.1 st.2 0
      let g2 ← treeGet st.1 st.2 2
      let g4 ← treeGet st.1 st.2 4
      let g5 ← treeGet st.1 st.2 5
      pure (g0, g2, g4, g5)) = .ok (some 0, some 2, some 4, none) ∧
    (do
      let st ← insertSeq 5
      let r ← treeRemove st.1 st.2 2
      let g2 ← treeGet r.2.1 r.2.2 2
      let g3 ← treeGet r.2.1 r.2.2 3
      pure (r.1, g2, g3)) = .ok (some 2, none, some 3) ∧
    insertSeq 6 = .error .indexOutOfBounds ∧
    oracleGet (oracleSeq 6) 5 = some 5 ∧
    LEAF_ORDER = 5 ∧ leafOrderOf 8 8 8 = 511 :=
  ⟨rfl, rfl, rfl, rfl, rfl, rfl⟩

/-- Witness for `free_list_shift_front_spec` at the concrete free list
with window `[1, 3)` and an all-zero pager. -/
theorem free_list_shift_front_spec_witness :
    (1 : ℕ) ≤ 3 ∧ (3 : ℕ) < U32 ∧
    (((3 : ℕ) ≤ 1 →
      FreeList.shift_front ⟨0, 1, 3⟩ ⟨fun _ _ => 0, fun _ => false⟩ =
        (none, ⟨0, (1 + 1) % U32, (3 + 1) % U32⟩)) ∧
    ((1 : ℕ) < 3 →
      FreeList.shift_front ⟨0, 1, 3⟩ ⟨fun _ _ => 0, fun _ => false⟩ =
        (some (FreeList.get ⟨0, 1, 3⟩ 1 ⟨fun _ _ => 0, fun _ => false⟩),
          ⟨0, (1 + 1) % U32, 3⟩)) ∧
    (FreeList.shift_front ⟨0, 1, 3⟩ ⟨fun _ _ => 0, fun _ => false⟩).2.back -
        (FreeList.shift_front ⟨0, 1, 3⟩ ⟨fun _ _ => 0, fun _ => false⟩).2.front =
      (if (1 : ℕ) < 3 then 3 - 1 - 1 else 3 - 1)) :=
  ⟨by decide, by decide,
    free_list_shift_front_spec ⟨0, 1, 3⟩ ⟨fun _ _ => 0, fun _ => false⟩
      (by decide) (by decide)⟩

end Wosim
